import Mathlib

set_option maxRecDepth 100000

/-
Shallow embedding of the MxIris-Magic-Forks/Compute core:
  - Sources/ComputeCxx/Util/HashTable.cpp   (namespace util, UntypedTable)
  - Sources/ComputeCxx/Attribute/AttributeID.h (namespace AG, AttributeID)

Machine integers are modelled as Nat with explicit reduction modulo 2^64
where the C code relies on 64-bit wraparound.  Pointers (keys, values,
HashNode addresses, bucket storage) are modelled as Nat identifiers:
the node store is a list indexed by node id, the bucket array is a list
of optional chain-head ids, and the spare (free) list is threaded through
the same store.  Every loop that chases next pointers in the C code takes
explicit fuel; the fuel is always at least the number of allocated nodes
plus one, which is enough for every acyclic chain.
-/

namespace util

/-- 2^64, the modulus of the 64-bit arithmetic used by pointer_hash. -/
def U64 : Nat := 18446744073709551616

/-- Bitwise NOT on a 64-bit quantity (the C expression -1 ^ x on int64_t). -/
def not64 (v : Nat) : Nat := (U64 - 1) ^^^ (v % U64)

/-- 64-bit left shift with wraparound ((int64_t)v << k). -/
def shl64 (v k : Nat) : Nat := (v <<< k) % U64

/-- Arithmetic (sign-extending) right shift of a two's-complement 64-bit value. -/
def sar64 (v k : Nat) : Nat :=
  if v % U64 < 9223372036854775808 then (v % U64) >>> k
  else ((v % U64) >>> k) + (U64 - (1 <<< (64 - k)))

/-- 64-bit addition with wraparound. -/
def add64 (a b : Nat) : Nat := (a + b) % U64

/-- 64-bit multiplication with wraparound. -/
def mul64 (a b : Nat) : Nat := (a * b) % U64

/-- util::pointer_hash from HashTable.cpp, bit for bit.
    C precedence: shifts bind tighter than ^, so e.g.
    result ^ result >> 0x16 is result ^ (result >> 22), and
    -1 ^ x << 0x20 is the bitwise NOT of (x << 32). -/
def pointer_hash (pointer : Nat) : Nat :=
  let p := pointer % U64
  let r1 := add64 (not64 (shl64 p 32)) p
  let r2 := r1 ^^^ sar64 r1 22
  let r3 := add64 r2 (not64 (shl64 r2 13))
  let r4 := mul64 (r3 ^^^ sar64 r3 8) 9
  let r5 := r4 ^^^ sar64 r4 15
  let r6 := add64 r5 (not64 (shl64 r5 27))
  r6 ^^^ sar64 r6 31

/-- util::pointer_compare: pointer identity. -/
def pointer_compare (a b : Nat) : Bool := a == b

/-- One entry of the table: key, value, cached hash and the intrusive
    next link of its singly linked bucket chain (a node id, or none). -/
structure HashNode where
  key : Nat
  value : Nat
  hash_value : Nat
  next : Option Nat
deriving DecidableEq, Repr, Inhabited

/-- Notification issued to the did_remove_key / did_remove_value callbacks. -/
inductive Event where
  | removed_key (k : Nat)
  | removed_value (v : Nat)
deriving DecidableEq, Repr

/-- State of util::UntypedTable.  nodes is the arena-backed node store
    (node ids are indices); buckets = [] models the unallocated (null)
    bucket array; spare_node is the head of the free list; the two
    callback fields record whether a callback was registered (its
    invocations are reported as Events). -/
structure UntypedTable where
  hash : Nat → Nat
  compare : Nat → Nat → Bool
  did_remove_key : Bool
  did_remove_value : Bool
  has_heap : Bool
  nodes : List HashNode
  spare_node : Option Nat
  buckets : List (Option Nat)
  count : Nat
  bucket_mask : Nat
  bucket_mask_width : Nat
  is_heap_owner : Bool
  compare_by_pointer : Bool

/-- The default constructor UntypedTable::UntypedTable(). -/
def UntypedTable.init : UntypedTable where
  hash := pointer_hash
  compare := pointer_compare
  did_remove_key := false
  did_remove_value := false
  has_heap := false
  nodes := []
  spare_node := none
  buckets := []
  count := 0
  bucket_mask := 0
  bucket_mask_width := 0
  is_heap_owner := true
  compare_by_pointer := true

/-- The hasher argument of the parameterized constructor (null or custom). -/
inductive HashArg where
  | null
  | custom (f : Nat → Nat)

/-- The key_equal argument of the parameterized constructor.  The C code
    compares the function pointer against util::pointer_compare, so passing
    that exact function is distinguished from passing another function. -/
inductive CompareArg where
  | null
  | pointerCompare
  | custom (f : Nat → Nat → Bool)

def HashArg.fn : HashArg → (Nat → Nat)
  | .null => pointer_hash
  | .custom f => f

def CompareArg.fn : CompareArg → (Nat → Nat → Bool)
  | .null => pointer_compare
  | .pointerCompare => pointer_compare
  | .custom f => f

/-- Whether the argument is nullptr or the pointer_compare function itself. -/
def CompareArg.isPointerEquality : CompareArg → Bool
  | .null => true
  | .pointerCompare => true
  | .custom _ => false

/-- The parameterized constructor UntypedTable::UntypedTable(hasher, key_equal,
    key_callback_t, value_callback_t, Heap*).  external_heap models whether a
    non-null Heap* was supplied. -/
def UntypedTable.initWith (h : HashArg) (c : CompareArg)
    (cbk cbv : Bool) (external_heap : Bool) : UntypedTable where
  hash := match h with
    | .null => pointer_hash
    | .custom f => f
  compare := c.fn
  did_remove_key := cbk
  did_remove_value := cbv
  has_heap := external_heap
  nodes := []
  spare_node := none
  buckets := []
  count := 0
  bucket_mask := 0
  bucket_mask_width := 0
  is_heap_owner := !external_heap
  compare_by_pointer := c.isPointerEquality

/-- constexpr uint32_t initial_bucket_mask_width = 4. -/
def initial_bucket_mask_width : Nat := 4

/-- UntypedTable::create_buckets: lazily allocates 16 empty buckets
    (and the private heap) the first time it is needed. -/
def create_buckets (s : UntypedTable) : UntypedTable :=
  if s.buckets = [] then
    { s with
      bucket_mask_width := initial_bucket_mask_width
      bucket_mask := (1 <<< initial_bucket_mask_width) - 1
      has_heap := true
      buckets := List.replicate (1 <<< initial_bucket_mask_width) none }
  else s

/-- Walk a bucket chain looking for the first node satisfying pred.
    Returns the node id.  fuel bounds the walk (the C loop runs without
    a bound; any fuel larger than the chain length is equivalent). -/
def findNode (nodes : List HashNode) (pred : HashNode → Bool) :
    Nat → Option Nat → Option Nat
  | _, none => none
  | 0, some _ => none
  | fuel + 1, some nid =>
    if pred (nodes.getD nid default) then some nid
    else findNode nodes pred fuel (nodes.getD nid default).next

/-- UntypedTable::lookup.  Returns (value returned, key stored through
    found_key_out); both are none when the key is absent. -/
def lookup (s : UntypedTable) (key : Nat) : Option Nat × Option Nat :=
  if s.count ≠ 0 then
    let hash_value := s.hash key
    let head := s.buckets.getD (s.bucket_mask &&& hash_value) none
    let found :=
      if s.compare_by_pointer then
        findNode s.nodes (fun n => n.key == key) (s.nodes.length + 1) head
      else if head ≠ none then
        findNode s.nodes (fun n => n.hash_value == hash_value && s.compare n.key key)
          (s.nodes.length + 1) head
      else none
    match found with
    | some nid => (some (s.nodes.getD nid default).value, some (s.nodes.getD nid default).key)
    | none => (none, none)
  else (none, none)

/-- The relink loop body of UntypedTable::grow_buckets.  Faithful to the
    source, including its defect: the loop advance node = node->next runs
    after the body stored the new chain head into node->next, so the walk
    continues into the already relinked chain instead of the old one. -/
def relinkChain (mask' : Nat) :
    Nat → List HashNode × List (Option Nat) → Option Nat → List HashNode × List (Option Nat)
  | _, acc, none => acc
  | 0, acc, some _ => acc
  | fuel + 1, acc, some nid =>
    let n := acc.1.getD nid default
    let new_bucket := mask' &&& n.hash_value
    let nodes' := acc.1.set nid { n with next := acc.2.getD new_bucket none }
    let newB' := acc.2.set new_bucket (some nid)
    relinkChain mask' fuel (nodes', newB') ((nodes'.getD nid default).next)

/-- UntypedTable::grow_buckets: no-op above width 0x1E, otherwise doubles
    the bucket array and runs the relink loop over every old bucket. -/
def grow_buckets (s : UntypedTable) : UntypedTable :=
  if s.bucket_mask_width > 0x1E then s
  else
    let old_width := s.bucket_mask_width
    let new_width := old_width + 1
    let new_mask := (1 <<< new_width) - 1
    let p := (List.range (1 <<< old_width)).foldl
      (fun acc i => relinkChain new_mask (acc.1.length + 1) acc (s.buckets.getD i none))
      (s.nodes, (List.replicate (1 <<< new_width)
        (none : Option Nat)))
    { s with
      bucket_mask_width := new_width
      bucket_mask := new_mask
      has_heap := if initial_bucket_mask_width ≤ old_width then s.has_heap else true
      nodes := p.1
      buckets := p.2 }

/-- The two notifications issued when an entry's key and value are dropped:
    key callback first, then value callback, each only if registered. -/
def callbackEvents (s : UntypedTable) (key value : Nat) : List Event :=
  (if s.did_remove_key then [Event.removed_key key] else []) ++
    (if s.did_remove_value then [Event.removed_value value] else [])

/-- The fresh-insertion tail of UntypedTable::insert: pop the spare node or
    allocate, fill it in, link it at the head of its (possibly regrown)
    bucket, bump the count. -/
def insert_link (s : UntypedTable) (key value hash_value : Nat) :
    Bool × UntypedTable × List Event :=
  let alloc : Nat × UntypedTable :=
    match s.spare_node with
    | some nid => (nid, { s with spare_node := (s.nodes.getD nid default).next })
    | none => (s.nodes.length, { s with nodes := s.nodes ++ [default] })
  let nid := alloc.1
  let s4 := alloc.2
  let bucket := s4.bucket_mask &&& hash_value
  let node' : HashNode :=
    { key := key, value := value, hash_value := hash_value
      next := s4.buckets.getD bucket none }
  (true,
    { s4 with
      nodes := s4.nodes.set nid node'
      buckets := s4.buckets.set bucket (some nid)
      count := s4.count + 1 },
    [])

/-- UntypedTable::insert.  Returns (fresh insertion?, new state, callback
    events).  A matching live entry (same stored hash and equal key) is
    overwritten in place after reporting its old key and value. -/
def insert (s0 : UntypedTable) (key value : Nat) : Bool × UntypedTable × List Event :=
  let s := if s0.buckets = [] then create_buckets s0 else s0
  let hash_value := s.hash key
  let head := s.buckets.getD (hash_value &&& s.bucket_mask) none
  match findNode s.nodes (fun n => n.hash_value == hash_value && s.compare n.key key)
      (s.nodes.length + 1) head with
  | some nid =>
    let old := s.nodes.getD nid default
    (false,
      { s with nodes := s.nodes.set nid { old with key := key, value := value } },
      callbackEvents s old.key old.value)
  | none =>
    let s2 := if s.count + 1 > 4 <<< s.bucket_mask_width then grow_buckets s else s
    let s3 := { s2 with has_heap := true }
    insert_link s3 key value hash_value

/-- The chain walk shared by UntypedTable::remove and remove_ptr: find the
    first node satisfying pred, returning (value of the trailing pointer
    node at that moment, id of the match).  As in the source, the trailing
    pointer starts at the chain head itself, so a match at the head returns
    (head, head). -/
def removeFind (nodes : List HashNode) (pred : HashNode → Bool) :
    Nat → Nat → Option Nat → Option (Nat × Nat)
  | _, _, none => none
  | 0, _, some _ => none
  | fuel + 1, prev, some cand =>
    if pred (nodes.getD cand default) then some (prev, cand)
    else removeFind nodes pred fuel cand (nodes.getD cand default).next

/-- The mutation performed by remove / remove_ptr when a match was found,
    with the source's exact write order: node->next = candidate->next
    (a self-assignment when the match is the chain head, leaving the
    bucket head pointer untouched), then the callbacks, then the node is
    pushed onto the spare list and the count decremented. -/
def applyRemove (s : UntypedTable) (prev cand : Nat) : UntypedTable × List Event :=
  let nodes1 := s.nodes.set prev
    { s.nodes.getD prev default with next := (s.nodes.getD cand default).next }
  let c1 := nodes1.getD cand default
  let events := callbackEvents s c1.key c1.value
  let nodes2 := nodes1.set cand { c1 with next := s.spare_node }
  ({ s with nodes := nodes2, spare_node := some cand, count := s.count - 1 }, events)

/-- UntypedTable::remove_ptr.  The result Bool is wrapped in Option because
    the source function has no return statement on the not-found
    fall-through (walking to the end of the bucket chain, or starting from
    an empty bucket, reaches the end of the non-void function): that path
    is modelled as none. -/
def remove_ptr (s : UntypedTable) (key : Nat) : Option Bool × UntypedTable × List Event :=
  if s.count = 0 then (some false, s, [])
  else
    match s.buckets.getD (s.bucket_mask &&& s.hash key) none with
    | none => (none, s, [])
    | some h =>
      match removeFind s.nodes (fun n => n.key == key) (s.nodes.length + 1) h (some h) with
      | some pc =>
        let r := applyRemove s pc.1 pc.2
        (some true, r.1, r.2)
      | none => (none, s, [])

/-- UntypedTable::remove.  Dispatches to remove_ptr in pointer mode;
    the general path compares stored hash and the equality callback and
    has an explicit return false fall-through. -/
def remove (s : UntypedTable) (key : Nat) : Option Bool × UntypedTable × List Event :=
  if s.count = 0 then (some false, s, [])
  else if s.compare_by_pointer then remove_ptr s key
  else
    let hash_value := s.hash key
    match s.buckets.getD (s.bucket_mask &&& hash_value) none with
    | none => (some false, s, [])
    | some h =>
      match removeFind s.nodes
          (fun n => n.hash_value == hash_value && s.compare n.key key)
          (s.nodes.length + 1) h (some h) with
      | some pc =>
        let r := applyRemove s pc.1 pc.2
        (some true, r.1, r.2)
      | none => (some false, s, [])

/-- Collect the (key, value) pairs of one bucket chain in chain order. -/
def chainEntries (nodes : List HashNode) : Nat → Option Nat → List (Nat × Nat)
  | _, none => []
  | 0, some _ => []
  | fuel + 1, some nid =>
    ((nodes.getD nid default).key, (nodes.getD nid default).value) ::
      chainEntries nodes fuel (nodes.getD nid default).next

/-- UntypedTable::for_each: the sequence of (key, value) pairs passed to the
    body callback, in bucket order then chain order; empty when count is 0. -/
def for_each (s : UntypedTable) : List (Nat × Nat) :=
  if s.count ≠ 0 then
    (List.range (1 <<< s.bucket_mask_width)).foldl
      (fun acc i => acc ++ chainEntries s.nodes (s.nodes.length + 1) (s.buckets.getD i none))
      []
  else []

/-- A client-visible table operation (lookup and for_each do not change
    the state). -/
inductive Op where
  | insertOp (k v : Nat)
  | removeOp (k : Nat)
  | lookupOp (k : Nat)
  | forEachOp

/-- The state after one operation. -/
def runOp (s : UntypedTable) : Op → UntypedTable
  | .insertOp k v => (insert s k v).2.1
  | .removeOp k => (remove s k).2.1
  | .lookupOp _ => s
  | .forEachOp => s

/-- The state after a sequence of operations. -/
def run (s : UntypedTable) (ops : List Op) : UntypedTable :=
  ops.foldl runOp s

/-- ChainIs nodes head L: starting from the optional node id head and
    following next links through the store reaches the end of the chain,
    visiting exactly the node ids in L (so the chain is finite and every
    id is allocated). -/
inductive ChainIs (nodes : List HashNode) : Option Nat → List Nat → Prop where
  | nil : ChainIs nodes none []
  | cons {nid : Nat} {L : List Nat} (hlt : nid < nodes.length)
      (htail : ChainIs nodes (nodes.getD nid default).next L) :
      ChainIs nodes (some nid) (nid :: L)

/-- A node id is live when it sits on the chain of some bucket. -/
def Live (s : UntypedTable) (nid : Nat) : Prop :=
  ∃ b, b < s.buckets.length ∧
    ∃ L, ChainIs s.nodes (s.buckets.getD b none) L ∧ nid ∈ L

/-- Structural well-formedness of a table state: the mask matches the
    width, the bucket array is unallocated or has 2^width slots, and every
    bucket holds a finite duplicate-free chain whose nodes carry their
    key's hash and sit in the bucket selected by that hash. -/
structure WF (s : UntypedTable) : Prop where
  mask_eq : s.bucket_mask = (1 <<< s.bucket_mask_width) - 1
  blen : s.buckets = [] ∨ s.buckets.length = 1 <<< s.bucket_mask_width
  chains : ∀ b, b < s.buckets.length →
    ∃ L, ChainIs s.nodes (s.buckets.getD b none) L ∧ L.Nodup ∧
      ∀ nid ∈ L,
        (s.nodes.getD nid default).hash_value = s.hash (s.nodes.getD nid default).key ∧
        s.hash (s.nodes.getD nid default).key &&& s.bucket_mask = b

/-- The hash and the equality callback agree: equal keys hash alike.
    This holds automatically in pointer mode and is the contract a custom
    (hash, equality) pair must satisfy for the table to make sense. -/
def HashCompat (s : UntypedTable) : Prop :=
  ∀ a b, s.compare a b = true → s.hash a = s.hash b

/-- Concrete two-entry table: keys 8 and 16 (values 100 and 200) inserted
    into a default table; their hashes place them in distinct buckets
    (13 and 14), so each is the head of its own chain. -/
def c1_state : UntypedTable :=
  (insert ((insert UntypedTable.init 8 100).2.1) 16 200).2.1

/-- 65 distinct keys 8, 16, ..., 520. -/
def c2_keys : List Nat := (List.range 65).map (fun i => 8 * (i + 1))

/-- Each key of c2_keys inserted (with itself as value) into a default
    table: the 65th insertion exceeds 4 * 16 entries and triggers growth. -/
def c2_state : UntypedTable :=
  c2_keys.foldl (fun s k => (insert s k k).2.1) UntypedTable.init

/-- The same run stopped after 64 insertions, before any growth. -/
def c2_pre : UntypedTable :=
  (c2_keys.take 64).foldl (fun s k => (insert s k k).2.1) UntypedTable.init

/-- A table state whose bucket-index width is exactly 30 bits (the cap
    named by the specification). -/
def cap_state : UntypedTable :=
  { UntypedTable.init with bucket_mask_width := 30, bucket_mask := (1 <<< 30) - 1 }

/-- A table state whose bucket-index width is 31 bits (the width actually
    reached by the code, one past the specification's cap). -/
def capped_state : UntypedTable :=
  { UntypedTable.init with bucket_mask_width := 31, bucket_mask := (1 <<< 31) - 1 }

end util

namespace AG

/-- AG::AttributeID: a 2-bit kind tag packed into the low bits of a 32-bit
    arena pointer.  The raw field is the uint32_t _value. -/
structure AttributeID where
  value : Nat
deriving DecidableEq, Repr

namespace AttributeID

/-- static constexpr uint32_t KindMask = 0x3. -/
def KindMask : Nat := 0x3

/-- enum Kind : Direct = 0, Indirect = 1 << 0, NilAttribute = 1 << 1. -/
inductive Kind where
  | Direct
  | Indirect
  | NilAttribute
deriving DecidableEq, Repr

/-- The numeric value of the Kind enumerator. -/
def Kind.toNat : Kind → Nat
  | .Direct => 0
  | .Indirect => 1
  | .NilAttribute => 2

/-- AttributeID(data::ptr<Node> node) : _value(node | Kind::Direct). -/
def ofNode (p : Nat) : AttributeID := ⟨p ||| Kind.toNat .Direct⟩

/-- AttributeID(data::ptr<IndirectNode>) : _value(ptr | Kind::Indirect). -/
def ofIndirectNode (p : Nat) : AttributeID := ⟨p ||| Kind.toNat .Indirect⟩

/-- static AttributeID make_nil() { return AttributeID(Kind::NilAttribute). } -/
def make_nil : AttributeID := ⟨Kind.toNat .NilAttribute⟩

/-- operator bool() const { return _value == 0. } -/
def toBool (a : AttributeID) : Bool := a.value == 0

/-- Kind kind() const { return Kind(_value & KindMask). }  (raw tag value). -/
def kind (a : AttributeID) : Nat := a.value &&& KindMask

/-- ~KindMask on uint32_t. -/
def NotKindMask : Nat := 0xFFFFFFFC

/-- AttributeID with_kind(Kind) const: replace the tag bits, keep the rest. -/
def with_kind (a : AttributeID) (k : Kind) : AttributeID :=
  ⟨(a.value &&& NotKindMask) ||| k.toNat⟩

def is_direct (a : AttributeID) : Bool := a.kind == Kind.toNat .Direct
def is_indirect (a : AttributeID) : Bool := a.kind == Kind.toNat .Indirect
def is_nil (a : AttributeID) : Bool := a.kind == Kind.toNat .NilAttribute

/-- The address dereferenced by to_node(): data::ptr<Node>(_value & ~KindMask). -/
def to_node_ptr (a : AttributeID) : Nat := a.value &&& NotKindMask

/-- The address dereferenced by to_indirect_node(). -/
def to_indirect_node_ptr (a : AttributeID) : Nat := a.value &&& NotKindMask

end AttributeID

end AG

/-! Helper lemmas. -/

namespace util

theorem chainIs_unique {nodes : List HashNode} :
    ∀ {h : Option Nat} {L1 L2 : List Nat},
      ChainIs nodes h L1 → ChainIs nodes h L2 → L1 = L2 := by
  intro h L1 L2 h1 h2
  induction h1 generalizing L2 with
  | nil => cases h2; rfl
  | cons hlt htail ih =>
    cases h2 with
    | cons hlt2 htail2 => rw [ih htail2]

theorem chainIs_mem_lt {nodes : List HashNode} {h : Option Nat} {L : List Nat}
    (hc : ChainIs nodes h L) : ∀ nid ∈ L, nid < nodes.length := by
  induction hc with
  | nil => intro nid hmem; cases hmem
  | cons hlt htail ih =>
    intro nid hmem
    rcases List.mem_cons.mp hmem with rfl | hmem
    · exact hlt
    · exact ih nid hmem

theorem nodup_lt_length_le {L : List Nat} {n : Nat}
    (hd : L.Nodup) (hlt : ∀ x ∈ L, x < n) : L.length ≤ n := by
  have hsub : L.toFinset ⊆ Finset.range n := by
    intro x hx
    simp only [List.mem_toFinset] at hx
    exact Finset.mem_range.mpr (hlt x hx)
  have := Finset.card_le_card hsub
  rwa [List.toFinset_card_of_nodup hd, Finset.card_range] at this

theorem findNode_none (nodes : List HashNode) (pred : HashNode → Bool) (fuel : Nat) :
    findNode nodes pred fuel none = none := by
  cases fuel <;> rfl

theorem findNode_eq_find? {nodes : List HashNode} {pred : HashNode → Bool} :
    ∀ {h : Option Nat} {L : List Nat} {fuel : Nat},
      ChainIs nodes h L → L.length ≤ fuel →
      findNode nodes pred fuel h = L.find? (fun nid => pred (nodes.getD nid default)) := by
  intro h L fuel hc
  induction hc generalizing fuel with
  | nil => intro _; rw [findNode_none]; rfl
  | @cons nid L hlt htail ih =>
    intro hfuel
    match fuel, hfuel with
    | fuel + 1, hfuel =>
      rw [findNode, List.find?_cons]
      cases hp : pred (nodes.getD nid default)
      · simpa using ih (by simpa using Nat.le_of_succ_le_succ hfuel)
      · rfl

end util

namespace AG

theorem tag_of_masked_or_tag (v t : Nat) (ht : t < 4) :
    ((v &&& 0xFFFFFFFC) ||| t) &&& 0x3 = t := by
  apply Nat.eq_of_testBit_eq
  intro i
  simp only [Nat.testBit_and, Nat.testBit_or]
  rcases Nat.lt_or_ge i 2 with hi | hi
  · interval_cases i
    · have hm : Nat.testBit 0xFFFFFFFC 0 = false := by decide
      have h3 : Nat.testBit 0x3 0 = true := by decide
      rw [hm, h3]
      simp
    · have hm : Nat.testBit 0xFFFFFFFC 1 = false := by decide
      have h3 : Nat.testBit 0x3 1 = true := by decide
      rw [hm, h3]
      simp
  · have h2 : (2 : Nat) ^ 2 ≤ 2 ^ i := Nat.pow_le_pow_right (by omega) hi
    have h3 : Nat.testBit 0x3 i = false := Nat.testBit_lt_two_pow (by omega)
    have htb : Nat.testBit t i = false := Nat.testBit_lt_two_pow (by omega)
    rw [h3, htb]
    simp

theorem masked_of_masked_or_tag (v t : Nat) (ht : t < 4) :
    ((v &&& 0xFFFFFFFC) ||| t) &&& 0xFFFFFFFC = v &&& 0xFFFFFFFC := by
  apply Nat.eq_of_testBit_eq
  intro i
  simp only [Nat.testBit_and, Nat.testBit_or]
  rcases Nat.lt_or_ge i 2 with hi | hi
  · interval_cases i
    · have hm : Nat.testBit 0xFFFFFFFC 0 = false := by decide
      rw [hm]
      simp
    · have hm : Nat.testBit 0xFFFFFFFC 1 = false := by decide
      rw [hm]
      simp
  · have h2 : (2 : Nat) ^ 2 ≤ 2 ^ i := Nat.pow_le_pow_right (by omega) hi
    have htb : Nat.testBit t i = false := Nat.testBit_lt_two_pow (by omega)
    rw [htb]
    cases v.testBit i <;> cases Nat.testBit 0xFFFFFFFC i <;> simp

end AG

namespace util

theorem create_buckets_width (s : UntypedTable) :
    (create_buckets s).bucket_mask_width =
      if s.buckets = [] then initial_bucket_mask_width else s.bucket_mask_width := by
  unfold create_buckets
  split <;> rfl

theorem grow_buckets_width (s : UntypedTable) :
    (grow_buckets s).bucket_mask_width =
      if s.bucket_mask_width > 0x1E then s.bucket_mask_width
      else s.bucket_mask_width + 1 := by
  unfold grow_buckets
  split <;> rfl

theorem insert_link_width (s : UntypedTable) (key value hash_value : Nat) :
    (insert_link s key value hash_value).2.1.bucket_mask_width = s.bucket_mask_width := by
  unfold insert_link
  cases s.spare_node <;> rfl

theorem insert_width_le (s : UntypedTable) (key value : Nat)
    (h : s.bucket_mask_width ≤ 31) :
    (insert s key value).2.1.bucket_mask_width ≤ 31 := by
  have h1 : (if s.buckets = [] then create_buckets s else s).bucket_mask_width ≤ 31 := by
    split
    · rename_i hb
      rw [create_buckets_width, if_pos hb]
      decide
    · exact h
  simp only [insert]
  set s1 := if s.buckets = [] then create_buckets s else s with hs1
  split
  · exact h1
  · rw [insert_link_width]
    show (if s1.count + 1 > 4 <<< s1.bucket_mask_width then grow_buckets s1 else s1).bucket_mask_width ≤ 31
    split
    · rw [grow_buckets_width]
      split <;> omega
    · exact h1

theorem remove_width (s : UntypedTable) (key : Nat) :
    (remove s key).2.1.bucket_mask_width = s.bucket_mask_width := by
  unfold remove remove_ptr applyRemove
  dsimp only
  repeat' split <;> try rfl

theorem runOp_width_le (s : UntypedTable) (op : Op)
    (h : s.bucket_mask_width ≤ 31) : (runOp s op).bucket_mask_width ≤ 31 := by
  cases op with
  | insertOp k v => exact insert_width_le s k v h
  | removeOp k =>
    show (remove s k).2.1.bucket_mask_width ≤ 31
    rw [remove_width]
    exact h
  | lookupOp k => exact h
  | forEachOp => exact h

theorem run_width_le : ∀ (ops : List Op) (s : UntypedTable),
    s.bucket_mask_width ≤ 31 → (run s ops).bucket_mask_width ≤ 31
  | [], _, h => h
  | op :: ops, s, h => run_width_le ops (runOp s op) (runOp_width_le s op h)

theorem init_wf : WF UntypedTable.init := by
  refine ⟨rfl, Or.inl rfl, ?_⟩
  intro b hb
  simp [UntypedTable.init] at hb

theorem init_hashCompat : HashCompat UntypedTable.init := by
  intro a b hab
  have : a = b := by simpa [UntypedTable.init, pointer_compare] using hab
  rw [this]

theorem initWith_null_eq_init :
    UntypedTable.initWith HashArg.null CompareArg.null false false false =
      UntypedTable.init := rfl

theorem insert_link_fst (s : UntypedTable) (key value hash_value : Nat) :
    (insert_link s key value hash_value).1 = true := by
  unfold insert_link
  cases s.spare_node <;> rfl

theorem getD_replicate (n i : Nat) (a : Option Nat) :
    (List.replicate n a).getD i a = a := by
  induction n generalizing i with
  | zero => cases i <;> rfl
  | succ n ih => cases i with
    | zero => rfl
    | succ i => exact ih i

theorem insert_fst_of_buckets_nil (s : UntypedTable) (key value : Nat)
    (hb : s.buckets = []) : (insert s key value).1 = true := by
  unfold insert
  rw [if_pos hb]
  unfold create_buckets
  rw [if_pos hb]
  dsimp only
  rw [getD_replicate, findNode_none]
  exact insert_link_fst _ _ _ _

theorem insert_eq_of_buckets_ne (s : UntypedTable) (key value : Nat)
    (hb : s.buckets ≠ []) :
    insert s key value =
      match findNode s.nodes
          (fun n => n.hash_value == s.hash key && s.compare n.key key)
          (s.nodes.length + 1)
          (s.buckets.getD (s.hash key &&& s.bucket_mask) none) with
      | some nid =>
        let old := s.nodes.getD nid default
        (false,
          { s with nodes := s.nodes.set nid { old with key := key, value := value } },
          callbackEvents s old.key old.value)
      | none =>
        insert_link
          { (if s.count + 1 > 4 <<< s.bucket_mask_width then grow_buckets s else s) with
            has_heap := true } key value (s.hash key) := by
  unfold insert
  rw [if_neg hb]

end util

/-! Claim theorems. -/

namespace util

/-- C1: the claim is violated by the code.  In a default (pointer-mode)
table holding keys 8 and 16 in distinct buckets, remove 8 returns true,
yet because the matching node is its bucket's chain head the source only
performs the self-assignment node->next = candidate->next and never
updates the bucket head pointer, so a subsequent lookup of 8 still
returns the removed entry's value 100 instead of not-found. -/
theorem c1_remove_head_leaves_entry_reachable :
    (remove c1_state 8).1 = some true ∧
    (lookup (remove c1_state 8).2.1 8).1 = some 100 := by decide

/-- C2: the claim is violated by the code.  Before growth the 64-entry
table finds key 8; the 65th insertion triggers grow_buckets, whose relink
loop overwrites node->next with the new chain head before the loop
advance reads it, so every non-head entry of each old bucket is dropped:
afterwards lookup of key 8 (inserted first, hence at its bucket's tail)
returns none even though the count still reports 65 entries. -/
theorem c2_grow_buckets_drops_entries :
    (lookup c2_pre 8).1 = some 8 ∧
    c2_state.count = 65 ∧
    c2_state.bucket_mask_width = 5 ∧
    (lookup c2_state 8).1 = none := by decide

/-- C3: the claim is violated by the code.  After the broken head removal
of key 8 (see C1) the entry is still chained, so a second remove of the
already-removed key 8 returns true, not false; and removing the
never-inserted key 112, which hashes to the non-empty bucket of key 16,
walks that chain to its end and reaches the end of the non-void
remove_ptr without any return statement (modelled as none). -/
theorem c3_remove_absent_key_results :
    (remove (remove c1_state 8).2.1 8).1 = some true ∧
    (remove c1_state 112).1 = none := by decide

/-- C7 counterexample: at the specification's 30-bit cap a growth attempt
is not a no-op: grow_buckets's guard only returns early above 0x1E, so a
table of width 30 grows to width 31, exceeding 30 bits. -/
theorem c7_grow_at_cap_increments_width :
    cap_state.bucket_mask_width = 30 ∧
    (grow_buckets cap_state).bucket_mask_width = 31 := ⟨rfl, rfl⟩

/-- C7 amended: the bucket-index width never exceeds 31 bits.  grow_buckets
is a no-op (leaving buckets, mask and width unchanged) exactly once the
width exceeds 30, so one growth step past the 30-bit cap still happens;
over every operation sequence from a fresh table the width stays at most
31, and past that point chains lengthen instead. -/
theorem c7_width_bound :
    (∀ s : UntypedTable, 0x1E < s.bucket_mask_width → grow_buckets s = s) ∧
    (∀ ops : List Op, (run UntypedTable.init ops).bucket_mask_width ≤ 31) := by
  constructor
  · intro s h
    unfold grow_buckets
    rw [if_pos h]
  · intro ops
    exact run_width_le ops UntypedTable.init (by decide)

/-- Witness for C7 amended at concrete inputs: growth on a width-31 state
is the identity, and the empty operation sequence keeps width at most 31. -/
theorem c7_width_bound_witness :
    grow_buckets capped_state = capped_state ∧
    (run UntypedTable.init []).bucket_mask_width ≤ 31 :=
  ⟨c7_width_bound.1 capped_state (by decide), c7_width_bound.2 []⟩

/-- C6: in a well-formed table whose hash and equality callback agree,
insert returns true exactly when no live entry with an equal key existed;
when such an entry exists it is replaced in place, overwriting only that
node's key and value (so its chain links, its bucket, and every other
node are untouched and its chain position is preserved), the old key and
old value are passed to the key-removed and value-removed callbacks when
registered, and insert returns false. -/
theorem c6_insert_spec (s : UntypedTable) (key value : Nat)
    (hwf : WF s) (hc : HashCompat s) :
    ((insert s key value).1 = true ↔
      ¬ ∃ nid, Live s nid ∧ s.compare (s.nodes.getD nid default).key key = true) ∧
    ((insert s key value).1 = false →
      ∃ nid, Live s nid ∧ s.compare (s.nodes.getD nid default).key key = true ∧
        (insert s key value).2.1 = { s with nodes := s.nodes.set nid { s.nodes.getD nid default with key := key, value := value } } ∧
        (insert s key value).2.2 = callbackEvents s (s.nodes.getD nid default).key (s.nodes.getD nid default).value) := by
  by_cases hb : s.buckets = []
  · have h1 : (insert s key value).1 = true := insert_fst_of_buckets_nil s key value hb
    have hnolive : ¬ ∃ nid, Live s nid ∧ s.compare (s.nodes.getD nid default).key key = true := by
      rintro ⟨nid, ⟨b, hblt, _⟩, _⟩
      rw [hb] at hblt
      simp at hblt
    refine ⟨?_, ?_⟩
    · rw [h1]
      simp only [hnolive]
      simp
    · intro h2
      rw [h1] at h2
      simp at h2
  · have hlen : s.buckets.length = 1 <<< s.bucket_mask_width := hwf.blen.resolve_left hb
    have hblt : (s.hash key &&& s.bucket_mask) < s.buckets.length := by
      have h1 : (s.hash key &&& s.bucket_mask) ≤ s.bucket_mask := Nat.and_le_right
      have h2 : s.bucket_mask < 1 <<< s.bucket_mask_width := by
        rw [hwf.mask_eq, Nat.one_shiftLeft]
        have : 0 < 2 ^ s.bucket_mask_width := Nat.pos_pow_of_pos _ (by omega)
        omega
      omega
    obtain ⟨L, hchain, hnodup, hprops⟩ := hwf.chains _ hblt
    have hfuel : L.length ≤ s.nodes.length + 1 :=
      Nat.le_succ_of_le (nodup_lt_length_le hnodup (chainIs_mem_lt hchain))
    rw [insert_eq_of_buckets_ne s key value hb, findNode_eq_find? hchain hfuel]
    dsimp only
    cases hf : L.find? (fun nid => (s.nodes.getD nid default).hash_value == s.hash key && s.compare (s.nodes.getD nid default).key key) with
    | none =>
      dsimp only
      have hP : ¬ ∃ nid, Live s nid ∧ s.compare (s.nodes.getD nid default).key key = true := by
        rintro ⟨nid, ⟨b', hb'lt, L', hchain', hmem'⟩, hcmp⟩
        obtain ⟨L'', hchain'', hnodup'', hprops''⟩ := hwf.chains b' hb'lt
        have hLL : L' = L'' := chainIs_unique hchain' hchain''
        rw [hLL] at hmem'
        obtain ⟨hhash, hres⟩ := hprops'' nid hmem'
        have hkeyhash : s.hash (s.nodes.getD nid default).key = s.hash key := hc _ _ hcmp
        rw [hkeyhash] at hres
        subst hres
        have hLL2 : L'' = L := chainIs_unique hchain'' hchain
        rw [hLL2] at hmem'
        have hnot := List.find?_eq_none.mp hf nid hmem'
        apply hnot
        rw [hhash, hkeyhash, hcmp]
        simp
      constructor
      · rw [insert_link_fst]
        exact iff_of_true rfl hP
      · intro h2
        rw [insert_link_fst] at h2
        simp at h2
    | some nid =>
      dsimp only
      have hmem : nid ∈ L := List.mem_of_find?_eq_some hf
      have hpred := List.find?_some hf
      rw [Bool.and_eq_true] at hpred
      obtain ⟨hbeq, hcmp⟩ := hpred
      have hlive : Live s nid := ⟨_, hblt, L, hchain, hmem⟩
      have hex : ∃ nid, Live s nid ∧ s.compare (s.nodes.getD nid default).key key = true :=
        ⟨nid, hlive, hcmp⟩
      constructor
      · apply iff_of_false
        · simp
        · exact fun hn => hn hex
      · intro _
        exact ⟨nid, hlive, hcmp, rfl, rfl⟩

/-- Witness for C6 at a concrete input: the fresh table is well-formed and
hash-compatible, and inserting key 8 with value 1 into it instantiates the
theorem. -/
theorem c6_insert_spec_witness :
    ((insert UntypedTable.init 8 1).1 = true ↔
      ¬ ∃ nid, Live UntypedTable.init nid ∧
        UntypedTable.init.compare (UntypedTable.init.nodes.getD nid default).key 8 = true) ∧
    ((insert UntypedTable.init 8 1).1 = false →
      ∃ nid, Live UntypedTable.init nid ∧
        UntypedTable.init.compare (UntypedTable.init.nodes.getD nid default).key 8 = true ∧
        (insert UntypedTable.init 8 1).2.1 = { UntypedTable.init with nodes := UntypedTable.init.nodes.set nid { UntypedTable.init.nodes.getD nid default with key := 8, value := 1 } } ∧
        (insert UntypedTable.init 8 1).2.2 = callbackEvents UntypedTable.init (UntypedTable.init.nodes.getD nid default).key (UntypedTable.init.nodes.getD nid default).value) :=
  c6_insert_spec UntypedTable.init 8 1 init_wf init_hashCompat

/-- C9: on a table with zero live entries every operation is total and
never touches the bucket array (which may still be unallocated, buckets
= []): lookup returns null and stores null through found_key_out, remove
returns false without changing the state or firing callbacks, and
for_each visits nothing.  The state s is arbitrary, so the result is
independent of the buckets field. -/
theorem c9_empty_table_safe (s : UntypedTable) (key : Nat) (h : s.count = 0) :
    lookup s key = (none, none) ∧
    remove s key = (some false, s, []) ∧
    for_each s = [] := by
  refine ⟨?_, ?_, ?_⟩
  · simp [lookup, h]
  · simp [remove, h]
  · simp [for_each, h]

/-- Witness for C9: the freshly constructed table has count 0, a null
bucket array, and all three operations behave as stated. -/
theorem c9_empty_table_safe_witness :
    lookup UntypedTable.init 0 = (none, none) ∧
    remove UntypedTable.init 0 = (some false, UntypedTable.init, []) ∧
    for_each UntypedTable.init = [] :=
  c9_empty_table_safe UntypedTable.init 0 rfl

/-- C10: the default constructor produces exactly the state of the
parameterized constructor called with null hash, null equality, no
callbacks and no external heap: pointer hashing, pointer-identity fast
path, no callbacks, private-arena ownership; hence every operation
sequence behaves identically on the two tables. -/
theorem c10_default_ctor_equiv :
    UntypedTable.initWith HashArg.null CompareArg.null false false false =
      UntypedTable.init ∧
    UntypedTable.init.compare_by_pointer = true ∧
    UntypedTable.init.is_heap_owner = true ∧
    (∀ ops : List Op,
      run (UntypedTable.initWith HashArg.null CompareArg.null false false false) ops =
        run UntypedTable.init ops) := by
  refine ⟨initWith_null_eq_init, rfl, rfl, fun ops => ?_⟩
  rw [initWith_null_eq_init]

end util

namespace AG

/-- C4 counterexample: the Direct reference with pointer bits 4 converts
to false, refuting the claim that every Direct or Indirect reference is
truthy: operator bool tests _value == 0, not validity. -/
theorem c4_direct_not_truthy :
    (AttributeID.ofNode 4).is_direct = true ∧
    (AttributeID.ofNode 4).toBool = false := by decide

/-- C4 amended: conversion to bool tests whether the raw encoded value is
zero.  The Nil reference (value 2) converts to false, but so does every
Direct or Indirect reference with nonzero encoded value; only the
all-zero encoding (a Direct reference with null pointer bits) is truthy. -/
theorem c4_bool_tests_zero_value :
    AttributeID.make_nil.toBool = false ∧
    (∀ a : AttributeID, (a.toBool = true ↔ a.value = 0)) := by
  refine ⟨rfl, fun a => ?_⟩
  simp [AttributeID.toBool]

/-- C5 counterexample: make_nil encodes Nil as Kind::NilAttribute = 2,
whose tag bits are 10 in binary, not the all-tag-set sentinel 3 = 11:
the low tag bit is clear. -/
theorem c5_nil_not_all_tag_set :
    AttributeID.make_nil.value = 2 ∧ AttributeID.KindMask = 3 ∧
    AttributeID.make_nil.value &&& AttributeID.KindMask ≠ AttributeID.KindMask := by
  decide

/-- C5 amended: the Nil AttributeID is the singleton whose encoding is the
NilAttribute tag value 2 (only the high bit of the 2-bit kind mask set);
its pointer bits are zero, so its value is never a backing pointer. -/
theorem c5_nil_encoding :
    AttributeID.make_nil.value = AttributeID.Kind.toNat AttributeID.Kind.NilAttribute ∧
    AttributeID.make_nil.kind = AttributeID.Kind.toNat AttributeID.Kind.NilAttribute ∧
    AttributeID.make_nil.to_node_ptr = 0 := by decide

/-- C8: for every AttributeID and every kind, with_kind followed by kind()
returns exactly the assigned kind's value, and the pointer bits are
unchanged: to_node() and to_indirect_node() dereference the same backing
address as before. -/
theorem c8_with_kind_roundtrip (a : AttributeID) (k : AttributeID.Kind) :
    (a.with_kind k).kind = k.toNat ∧
    (a.with_kind k).to_node_ptr = a.to_node_ptr ∧
    (a.with_kind k).to_indirect_node_ptr = a.to_indirect_node_ptr := by
  have ht : k.toNat < 4 := by cases k <;> decide
  exact ⟨tag_of_masked_or_tag a.value k.toNat ht,
    masked_of_masked_or_tag a.value k.toNat ht,
    masked_of_masked_or_tag a.value k.toNat ht⟩

end AG
